import Mathlib

/-!
Formal model of the hand-sign recognizer (`hand_sign_recognizer.py`).

The exact rational arithmetic of the program (classifier scores, template
means, smoothing threshold) is embedded over `ℚ`; the feature-extraction
geometry (arc-cosine, square roots) is embedded over `ℝ`.  A floating-point
operation that yields NaN (an unguarded `0/0`) is modelled as `none`;
a Python exception escaping a function is modelled with `Except`.
-/

/-- A 5-element per-finger vector (one entry per finger, thumb first). -/
abbrev Vec5 := Fin 5 → ℚ

/-- A gesture template: `(angles, distances)`. -/
abbrev TemplateData := Vec5 × Vec5

/-- One recorded feature frame: `(angles, distances)`. -/
abbrev FrameData := Vec5 × Vec5

/-- Similarity score of a live descriptor pair against one template,
mirroring `recognize_gesture`'s scoring:
`0.7 * (1 - mean |angle diff|) + 0.3 * (1 - mean |distance diff|)`. -/
def similarity (a d : Vec5) (t : TemplateData) : ℚ :=
  (1 - (∑ i, |a i - t.1 i|) / 5) * 0.7 + (1 - (∑ i, |d i - t.2 i|) / 5) * 0.3

/-- One iteration of the classifier's best-match loop:
update `(best_match, best_score)` when the score strictly exceeds it. -/
def classifyStep (a d : Vec5) (best : String × ℚ) (p : String × TemplateData) :
    String × ℚ :=
  if best.2 < similarity a d p.2 then (p.1, similarity a d p.2) else best

/-- `recognize_gesture`: returns `"calibrating"` when in calibration or
recording mode, otherwise scans the templates in store order starting from
`("unknown", 0.6)`. -/
def recognize_gesture (calib recg : Bool) (a d : Vec5)
    (gs : List (String × TemplateData)) : String :=
  if calib || recg then "calibrating"
  else (gs.foldl (classifyStep a d) ("unknown", 0.6)).1

/-- Append a label to the history, dropping the oldest when the window
exceeds the capacity 5 (`gesture_history.append` / `pop(0)`). -/
def pushHistory (hist : List String) (g : String) : List String :=
  if 5 < (hist ++ [g]).length then (hist ++ [g]).tail else hist ++ [g]

/-- Python dict key insertion: append the key if it is not yet present. -/
def insertKey (ks : List String) (g : String) : List String :=
  if g ∈ ks then ks else ks ++ [g]

/-- The keys of `gesture_counts` in Python dict (first-seen) order. -/
def windowKeys (hist : List String) : List String := hist.foldl insertKey []

/-- `max(gesture_counts, key=gesture_counts.get)`: the first key, in
first-seen order, attaining the maximal count (later keys replace the
running best only on a strictly greater count). -/
def mostCommonIn (hist : List String) : String :=
  match windowKeys hist with
  | [] => ""
  | k :: ks => ks.foldl (fun best g => if hist.count best < hist.count g then g else best) k

/-- `smooth_gesture_prediction`: push the raw label, find the most common
label of the window, and return it iff its count reaches
`history_max_length * 0.6 = 3`; otherwise return the previous label.
Also returns the updated window. -/
def smooth_gesture_prediction (hist : List String) (prev g : String) :
    List String × String :=
  if (5 : ℚ) * 0.6 ≤ ((pushHistory hist g).count (mostCommonIn (pushHistory hist g)) : ℚ) then
    (pushHistory hist g, mostCommonIn (pushHistory hist g))
  else (pushHistory hist g, prev)

/-- An executable twin of `smooth_gesture_prediction` with the threshold
`5 * 0.6` evaluated to the natural number 3 (the counts are integers, so
the comparison is the same). -/
def smoothN (hist : List String) (prev g : String) : List String × String :=
  if 3 ≤ (pushHistory hist g).count (mostCommonIn (pushHistory hist g)) then
    (pushHistory hist g, mostCommonIn (pushHistory hist g))
  else (pushHistory hist g, prev)

/-- The smoother's persistent state: the rolling window and the label the
process last displayed (`prev_gesture`; `process_video` stores each
smoothed output back into it). -/
structure SmootherState where
  history : List String
  prevGesture : String

/-- One frame of the display loop: smooth the raw label and store the
result as the displayed label. -/
def smootherStep (s : SmootherState) (g : String) : SmootherState :=
  ⟨(smooth_gesture_prediction s.history s.prevGesture g).1,
   (smooth_gesture_prediction s.history s.prevGesture g).2⟩

/-- Feed a sequence of raw labels through the smoother. -/
def smootherRun (s : SmootherState) (gs : List String) : SmootherState :=
  gs.foldl smootherStep s

/-- The executable twin of `smootherStep`. -/
def smootherStepN (s : SmootherState) (g : String) : SmootherState :=
  ⟨(smoothN s.history s.prevGesture g).1, (smoothN s.history s.prevGesture g).2⟩

/-- The executable twin of `smootherRun`. -/
def smootherRunN (s : SmootherState) (gs : List String) : SmootherState :=
  gs.foldl smootherStepN s

/-- The session controller's state: the mode flags, the recording buffer,
the in-memory template store (in insertion order) and its persisted
backing (`gestures/*.pkl`). -/
structure SessionState where
  calibrationMode : Bool
  recordingGesture : Bool
  recordingName : String
  recordingFrames : List FrameData
  gestures : List (String × TemplateData)
  persisted : List (String × TemplateData)

/-- `self.gestures[name] = t` on a Python dict: overwrite in place when the
key exists, append otherwise. -/
def storePut (gs : List (String × TemplateData)) (n : String) (t : TemplateData) :
    List (String × TemplateData) :=
  if n ∈ gs.map Prod.fst then gs.map (fun p => if p.1 = n then (n, t) else p)
  else gs ++ [(n, t)]

/-- Dict lookup: the value stored under a name, if present. -/
def storeGet (gs : List (String × TemplateData)) (n : String) : Option TemplateData :=
  (gs.find? (fun p => p.1 == n)).map Prod.snd

/-- The elementwise arithmetic mean of the buffered frames, as computed on
`STOP_RECORD` (`angles_sum / len`, `distances_sum / len`). -/
def meanFrames (frames : List FrameData) : FrameData :=
  (fun i => (frames.map (fun f => f.1 i)).sum / (frames.length : ℚ),
   fun i => (frames.map (fun f => f.2 i)).sum / (frames.length : ℚ))

/-- `data.startswith(pre)`: character-list prefix test. -/
def strStarts : List Char → List Char → Bool
  | [], _ => true
  | _ :: _, [] => false
  | c :: cs, e :: es => c == e && strStarts cs es

/-- The characters of a segment up to the next `:` (or the end). -/
def takeToColon : List Char → List Char
  | [] => []
  | c :: cs => if c = ':' then [] else c :: takeToColon cs

/-- The characters after the first `:`, up to the next `:` (or the end). -/
def afterColon : List Char → List Char
  | [] => []
  | c :: cs => if c = ':' then takeToColon cs else afterColon cs

/-- `data.split(':')[1]`: the second `:`-separated segment of a command
(used only on commands guarded to contain a `:`). -/
def cmdArg (data : String) : String := ⟨afterColon data.data⟩

/-- `read_from_client`'s command dispatch: parses one text command and
returns the updated state together with the messages sent to the client. -/
def handleCommand (s : SessionState) (data : String) : SessionState × List String :=
  if strStarts "CALIBRATE:".data data.data then
    ({ s with calibrationMode := true }, [])
  else if strStarts "RECORD:".data data.data then
    ({ s with recordingGesture := true, recordingFrames := [],
              recordingName := cmdArg data }, [])
  else if data = "STOP_RECORD" then
    if s.recordingGesture = true ∧ s.recordingFrames ≠ [] then
      ({ s with gestures := storePut s.gestures s.recordingName (meanFrames s.recordingFrames),
                persisted := storePut s.persisted s.recordingName (meanFrames s.recordingFrames),
                recordingGesture := false },
       ["GESTURE_SAVED:" ++ s.recordingName])
    else
      ({ s with recordingGesture := false }, [])
  else if data = "STOP_CALIBRATE" then
    ({ s with calibrationMode := false }, ["CALIBRATION_COMPLETE"])
  else if data = "GET_GESTURES" ∨ data = "LIST_GESTURES" then
    (s, ["GESTURES:" ++ String.intercalate "," (s.gestures.map Prod.fst)])
  else if strStarts "DELETE_GESTURE:".data data.data then
    if cmdArg data ∈ s.gestures.map Prod.fst then
      ({ s with gestures := s.gestures.filter (fun p => p.1 != cmdArg data),
                persisted := s.persisted.filter (fun p => p.1 != cmdArg data) },
       ["DELETED:" ++ cmdArg data])
    else (s, [])
  else (s, [])

/-- The five built-in default templates (literal vectors from the source). -/
def defaultGestures : List (String × TemplateData) :=
  [("thumbs_up", (![0.2, -0.9, -0.9, -0.9, -0.9], ![0.3, 0.8, 0.8, 0.8, 0.8])),
   ("victory", (![-0.9, 0.3, 0.3, -0.9, -0.9], ![0.8, 0.2, 0.2, 0.8, 0.8])),
   ("ok", (![0.3, 0.3, -0.9, -0.9, -0.9], ![0.2, 0.2, 0.8, 0.8, 0.8])),
   ("pointing", (![-0.9, 0.3, -0.9, -0.9, -0.9], ![0.8, 0.2, 0.8, 0.8, 0.8])),
   ("five", (![0.3, 0.3, 0.3, 0.3, 0.3], ![0.2, 0.2, 0.2, 0.2, 0.2]))]

/-- Sequentially unpickle the listed record files.  A record whose parsed
content is `none` is a corrupt pickle: `pickle.load` raises, and with no
surrounding handler the exception escapes `load_gestures`, so the whole
load becomes an error carrying the offending file's name. -/
def loadRecords : List (String × Option TemplateData) →
    Except String (List (String × TemplateData))
  | [] => Except.ok []
  | (n, none) :: _ => Except.error n
  | (n, some t) :: rest => (loadRecords rest).map (fun l => (n, t) :: l)

/-- `load_gestures`: when the gestures directory lists no `.pkl` files,
seed the store with the defaults; otherwise unpickle every listed file. -/
def load_gestures (files : List (String × Option TemplateData)) :
    Except String (List (String × TemplateData)) :=
  if files.isEmpty then Except.ok defaultGestures else loadRecords files

/-- One hand of one video frame in `process_video`'s recording branch:
append the feature frame only while recording, only while the buffer holds
fewer than `recording_max_frames = 30`, and only on even frame counts. -/
def recordFrameStep (recording : Bool) (frameCount : ℕ) (frames : List FrameData)
    (f : FrameData) : List FrameData :=
  if recording = true ∧ frames.length < 30 then
    if frameCount % 2 = 0 then frames ++ [f] else frames
  else frames

/-- Feed a whole sequence of `(recording flag, frame count, feature frame)`
events through the recording branch. -/
def recordRun (fs : List FrameData) (steps : List (Bool × ℕ × FrameData)) :
    List FrameData :=
  steps.foldl (fun acc st => recordFrameStep st.1 st.2.1 acc st.2.2) fs

/-- The 21 hand landmarks, each a 2D position `(x, y)`. -/
abbrev Landmarks := Fin 21 → ℝ × ℝ

/-- Componentwise vector difference `a - b` in the plane. -/
def vsub (a b : ℝ × ℝ) : ℝ × ℝ := (a.1 - b.1, a.2 - b.2)

/-- Planar dot product. -/
def dot2 (a b : ℝ × ℝ) : ℝ := a.1 * b.1 + a.2 * b.2

/-- `np.linalg.norm`: the Euclidean norm of a planar vector. -/
noncomputable def norm2 (a : ℝ × ℝ) : ℝ := Real.sqrt (a.1 ^ 2 + a.2 ^ 2)

/-- The three joint indices `(p1, p2, p3)` used per finger: the thumb uses
its own joints 1, 2, 3; every other finger uses the wrist (0), its middle
joint and its tip. -/
def fingerTriple (i : Fin 5) : Fin 21 × Fin 21 × Fin 21 :=
  match i.val with
  | 0 => (1, 2, 3)
  | 1 => (0, 6, 8)
  | 2 => (0, 10, 12)
  | 3 => (0, 14, 16)
  | _ => (0, 18, 20)

/-- The two joint vectors `v1 = p1 - p2` and `v2 = p3 - p2` of one finger. -/
noncomputable def angleVecs (lm : Landmarks) (i : Fin 5) : (ℝ × ℝ) × (ℝ × ℝ) :=
  (vsub (lm (fingerTriple i).1) (lm (fingerTriple i).2.1),
   vsub (lm (fingerTriple i).2.2) (lm (fingerTriple i).2.1))

/-- The denominator `‖v1‖ * ‖v2‖` of the cosine ratio for one finger. -/
noncomputable def angleDenom (lm : Landmarks) (i : Fin 5) : ℝ :=
  norm2 (angleVecs lm i).1 * norm2 (angleVecs lm i).2

/-- `calculate_finger_angles`, one finger at a time.  The source divides
`np.dot(v1, v2)` by `‖v1‖ * ‖v2‖` with no guard; when that denominator is
zero the IEEE quotient is NaN and every later step (`np.clip`,
`np.arccos`, the normalization) propagates it, which this model renders as
`none`.  Otherwise the result is `1 - arccos(clip(cos, -1, 1)) / π * 2`. -/
noncomputable def calculate_finger_angles (lm : Landmarks) (i : Fin 5) : Option ℝ :=
  if angleDenom lm i = 0 then none
  else
    some (1 - Real.arccos (min (max (dot2 (angleVecs lm i).1 (angleVecs lm i).2 /
      angleDenom lm i) (-1)) 1) / Real.pi * 2)

/-- The palm-point indices `[0, 5, 9, 13, 17]` averaged into the palm center. -/
def palmPoints : List (Fin 21) := [0, 5, 9, 13, 17]

/-- The palm center: the mean of the five palm landmark positions. -/
noncomputable def palmCenter (lm : Landmarks) : ℝ × ℝ :=
  ((palmPoints.map (fun j => (lm j).1)).sum / 5,
   (palmPoints.map (fun j => (lm j).2)).sum / 5)

/-- The fingertip landmark of finger `i` (`[4, 8, 12, 16, 20]`). -/
def fingertip (i : Fin 5) : Fin 21 :=
  match i.val with
  | 0 => 4
  | 1 => 8
  | 2 => 12
  | 3 => 16
  | _ => 20

/-- The raw Euclidean distance of fingertip `i` from the palm center. -/
noncomputable def rawDist (lm : Landmarks) (i : Fin 5) : ℝ :=
  norm2 (vsub (lm (fingertip i)) (palmCenter lm))

/-- `max_dist`: starting from 0, the running maximum of the five raw
fingertip distances. -/
noncomputable def max_dist (lm : Landmarks) : ℝ :=
  ((List.finRange 5).map (rawDist lm)).foldl max 0

/-- `calculate_finger_distances`: normalize by `max_dist` only when it is
positive, then invert (`1 - norm`). -/
noncomputable def calculate_finger_distances (lm : Landmarks) (i : Fin 5) : ℝ :=
  1 - (if 0 < max_dist lm then rawDist lm i / max_dist lm else rawDist lm i)

/-- The degenerate hand with every landmark at the origin: every joint
vector has zero length. -/
def zeroLm : Landmarks := fun _ => ((0 : ℝ), (0 : ℝ))

/-- A concrete non-degenerate hand: landmark `j` sits at `(j, 0)`. -/
noncomputable def lm7 : Landmarks := fun j => ((j.val : ℝ), (0 : ℝ))

/-- A template far from the zero descriptor, scoring below the threshold. -/
def farTemplate : TemplateData := (fun _ => 2, fun _ => 2)

/-- A concrete feature frame (angles all `-1`, distances all `0`). -/
def witnessFrame : FrameData := (fun _ => -1, fun _ => 0)

/-- A concrete session in Recording mode with two buffered frames. -/
def witnessSession : SessionState :=
  { calibrationMode := false, recordingGesture := true, recordingName := "fist",
    recordingFrames := [witnessFrame, witnessFrame], gestures := [], persisted := [] }

/-! ## Supporting lemmas -/

/-- Appending on the right preserves the suffix relation. -/
lemma suffix_append_right {α : Type} {l₁ l₂ r : List α} (h : l₁ <:+ l₂) :
    l₁ ++ r <:+ l₂ ++ r := by
  obtain ⟨t, ht⟩ := h
  exact ⟨t, by rw [← List.append_assoc, ht]⟩

/-- Pushing a label yields a suffix of the appended window. -/
lemma pushHistory_suffix (hist : List String) (g : String) :
    pushHistory hist g <:+ hist ++ [g] := by
  unfold pushHistory
  split
  · exact List.tail_suffix _
  · exact List.suffix_refl _

/-- Length of the window after one push, below capacity. -/
lemma pushHistory_length (hist : List String) (g : String) (hle : hist.length ≤ 5) :
    (pushHistory hist g).length = min (hist.length + 1) 5 := by
  unfold pushHistory
  split <;> rename_i hc <;>
    simp only [List.length_tail, List.length_append, List.length_singleton] at * <;> omega

/-! ## Claims -/

/-- Claim C1 (code evidence): on the degenerate hand whose landmarks all
coincide, every per-finger joint vector has zero length, the division
`dot / (nv1 * nv2)` in `calculate_finger_angles` runs unguarded, and the
result is the undefined NaN value (`none`) rather than any fallback. -/
theorem claim_C1 : ∀ i : Fin 5, calculate_finger_angles zeroLm i = none := by
  intro i
  have hv : angleVecs zeroLm i = ((0, 0), (0, 0)) := by
    simp [angleVecs, zeroLm, vsub]
  have hd : angleDenom zeroLm i = 0 := by
    simp [angleDenom, hv, norm2]
  simp [calculate_finger_angles, hd]

/-- Claim C2 (code evidence): a single corrupt persisted record makes the
whole load fail (the unpickling error escapes `load_gestures`); the
following intact record is never reached, contradicting skip-and-continue. -/
theorem claim_C2 :
    load_gestures [("corrupt", none), ("good", some (![0, 0, 0, 0, 0], ![0, 0, 0, 0, 0]))] =
      Except.error "corrupt" := rfl

/-- The run of the recording branch preserves the 30-frame capacity. -/
lemma recordRun_length_le : ∀ (steps : List (Bool × ℕ × FrameData)) (fs : List FrameData),
    fs.length ≤ 30 → (recordRun fs steps).length ≤ 30 := by
  intro steps
  induction steps with
  | nil => intro fs h; exact h
  | cons st rest ih =>
    intro fs h
    have hstep : (recordFrameStep st.1 st.2.1 fs st.2.2).length ≤ 30 := by
      unfold recordFrameStep
      split
      · split
        · rename_i h1 _
          simp only [List.length_append, List.length_singleton]
          omega
        · exact h
      · exact h
    exact ih _ hstep

/-- Claim C6: in `process_video`'s recording branch a frame is appended
only when recording, only on an even frame count, and only while the
buffer holds fewer than 30 frames; hence the buffer, starting within
capacity, never exceeds 30 frames over any run. -/
theorem claim_C6 (r : Bool) (c : ℕ) (fs : List FrameData) (f : FrameData) :
    (recordFrameStep r c fs f = fs ∨
      (recordFrameStep r c fs f = fs ++ [f] ∧ r = true ∧ c % 2 = 0 ∧ fs.length < 30)) ∧
    (fs.length ≤ 30 → (recordFrameStep r c fs f).length ≤ 30) ∧
    (∀ steps, fs.length ≤ 30 → (recordRun fs steps).length ≤ 30) := by
  refine ⟨?_, ?_, fun steps h => recordRun_length_le steps fs h⟩
  · unfold recordFrameStep
    split
    · split
      · rename_i h1 h2
        exact Or.inr ⟨rfl, h1.1, h2, h1.2⟩
      · exact Or.inl rfl
    · exact Or.inl rfl
  · intro h
    unfold recordFrameStep
    split
    · split
      · rename_i h1 _
        simp only [List.length_append, List.length_singleton]
        omega
      · exact h
    · exact h

/-- Witness for C6 at a concrete step. -/
theorem claim_C6_witness :
    (recordFrameStep true 0 [] (fun _ => 0, fun _ => 0)).length ≤ 30 :=
  (claim_C6 true 0 [] (fun _ => 0, fun _ => 0)).2.1 (by simp)

/-- Claim C9: the classifier is a deterministic function of the mode
flags, the descriptor pair and the template list. -/
theorem claim_C9 (c₁ c₂ r₁ r₂ : Bool) (a₁ a₂ d₁ d₂ : Vec5)
    (g₁ g₂ : List (String × TemplateData)) (hc : c₁ = c₂) (hr : r₁ = r₂)
    (ha : a₁ = a₂) (hd : d₁ = d₂) (hg : g₁ = g₂) :
    recognize_gesture c₁ r₁ a₁ d₁ g₁ = recognize_gesture c₂ r₂ a₂ d₂ g₂ := by
  subst hc hr ha hd hg
  rfl

/-- Witness for C9 at a concrete invocation. -/
theorem claim_C9_witness :
    recognize_gesture false false (fun _ => 0) (fun _ => 0) defaultGestures =
      recognize_gesture false false (fun _ => 0) (fun _ => 0) defaultGestures :=
  claim_C9 false false false false (fun _ => 0) (fun _ => 0) (fun _ => 0) (fun _ => 0)
    defaultGestures defaultGestures rfl rfl rfl rfl rfl

/-- Claim C10: `STOP_RECORD` outside Recording mode is a silent no-op:
the state (store, persisted records, flags) is returned unchanged and no
message is emitted. -/
theorem claim_C10 (s : SessionState) (h : s.recordingGesture = false) :
    handleCommand s "STOP_RECORD" = (s, []) := by
  obtain ⟨cal, recg, rn, rf, gs, ps⟩ := s
  simp only at h
  subst h
  rfl

/-- Witness for C10 at a concrete idle session. -/
theorem claim_C10_witness :
    handleCommand ⟨false, false, "", [], [], []⟩ "STOP_RECORD" =
      (⟨false, false, "", [], [], []⟩, []) :=
  claim_C10 ⟨false, false, "", [], [], []⟩ rfl

/-- Overwriting every matching entry of the association list puts the new
value at the (first) position of the name. -/
lemma find?_replace (gs : List (String × TemplateData)) (n : String) (t : TemplateData)
    (hmem : n ∈ gs.map Prod.fst) :
    (gs.map (fun p => if p.1 = n then (n, t) else p)).find? (fun p => p.1 == n) =
      some (n, t) := by
  induction gs with
  | nil => simp at hmem
  | cons p rest ih =>
    by_cases hp : p.1 = n
    · simp [hp]
    · have h2 : n ∈ rest.map Prod.fst := by
        rw [List.map_cons] at hmem
        rcases List.mem_cons.mp hmem with h | h
        · exact absurd h.symm hp
        · exact h
      simp only [List.map_cons, if_neg hp]
      rw [List.find?_cons_of_neg _ (by simpa using hp)]
      exact ih h2

/-- A `put` followed by a `get` of the same name returns the new value. -/
lemma storeGet_storePut (gs : List (String × TemplateData)) (n : String)
    (t : TemplateData) : storeGet (storePut gs n t) n = some t := by
  unfold storePut storeGet
  split
  · rename_i hmem
    rw [find?_replace gs n t hmem]
    rfl
  · rename_i hmem
    rw [List.find?_append]
    have h1 : gs.find? (fun p => p.1 == n) = none := by
      rw [List.find?_eq_none]
      intro x hx
      simp only [beq_iff_eq]
      intro hxn
      exact hmem (List.mem_map.mpr ⟨x, hx, hxn⟩)
    rw [h1]
    simp

/-- Claim C5: `STOP_RECORD` while recording with a non-empty buffer stores
and persists the elementwise mean of the buffered frames under the
recording name and emits `GESTURE_SAVED:<name>`; with an empty buffer it
leaves the store and the persisted records unchanged and emits nothing. -/
theorem claim_C5 (s : SessionState) (h : s.recordingGesture = true) :
    (s.recordingFrames ≠ [] →
      storeGet (handleCommand s "STOP_RECORD").1.gestures s.recordingName =
          some (meanFrames s.recordingFrames) ∧
        storeGet (handleCommand s "STOP_RECORD").1.persisted s.recordingName =
          some (meanFrames s.recordingFrames) ∧
        (handleCommand s "STOP_RECORD").2 = ["GESTURE_SAVED:" ++ s.recordingName]) ∧
    (s.recordingFrames = [] →
      (handleCommand s "STOP_RECORD").1.gestures = s.gestures ∧
        (handleCommand s "STOP_RECORD").1.persisted = s.persisted ∧
        (handleCommand s "STOP_RECORD").2 = []) := by
  constructor
  · intro hne
    have hcmd : handleCommand s "STOP_RECORD" =
        ({ s with gestures := storePut s.gestures s.recordingName (meanFrames s.recordingFrames),
                  persisted := storePut s.persisted s.recordingName (meanFrames s.recordingFrames),
                  recordingGesture := false },
         ["GESTURE_SAVED:" ++ s.recordingName]) := by
      unfold handleCommand
      rw [if_neg (by decide), if_neg (by decide), if_pos rfl, if_pos ⟨h, hne⟩]
    rw [hcmd]
    exact ⟨storeGet_storePut _ _ _, storeGet_storePut _ _ _, rfl⟩
  · intro he
    have hcmd : handleCommand s "STOP_RECORD" = ({ s with recordingGesture := false }, []) := by
      unfold handleCommand
      rw [if_neg (by decide), if_neg (by decide), if_pos rfl, if_neg (by simp [he])]
    rw [hcmd]
    exact ⟨rfl, rfl, rfl⟩

/-- Witness for C5 at a concrete recording session. -/
theorem claim_C5_witness :
    storeGet (handleCommand witnessSession "STOP_RECORD").1.gestures "fist" =
        some (meanFrames [witnessFrame, witnessFrame]) ∧
      (handleCommand witnessSession "STOP_RECORD").2 = ["GESTURE_SAVED:" ++ "fist"] := by
  have h := (claim_C5 witnessSession rfl).1 (by simp [witnessSession])
  exact ⟨h.1, h.2.2⟩

/-- Characterization of the classifier's best-match fold: either no
template beats the initial score and the accumulator is returned
untouched, or the result is the earliest template attaining the maximal
score, which strictly exceeds the initial score, strictly beats every
earlier template, and is unbeaten by every later one. -/
lemma classify_foldl_char (a d : Vec5) :
    ∀ (gs : List (String × TemplateData)) (b : String × ℚ),
      (gs.foldl (classifyStep a d) b = b ∧ ∀ u ∈ gs, similarity a d u.2 ≤ b.2) ∨
      (∃ pre t post, gs = pre ++ t :: post ∧
        gs.foldl (classifyStep a d) b = (t.1, similarity a d t.2) ∧
        b.2 < similarity a d t.2 ∧
        (∀ u ∈ pre, similarity a d u.2 < similarity a d t.2) ∧
        (∀ u ∈ post, similarity a d u.2 ≤ similarity a d t.2)) := by
  intro gs
  induction gs with
  | nil => intro b; exact Or.inl ⟨rfl, by simp⟩
  | cons p rest ih =>
    intro b
    by_cases hp : b.2 < similarity a d p.2
    · have hstep : (p :: rest).foldl (classifyStep a d) b =
          rest.foldl (classifyStep a d) (p.1, similarity a d p.2) := by
        simp only [List.foldl_cons, classifyStep, if_pos hp]
      rcases ih (p.1, similarity a d p.2) with ⟨heq, hub⟩ |
        ⟨pre, t, post, hsplit, heq, hgt, hpre, hpost⟩
      · exact Or.inr ⟨[], p, rest, rfl, by rw [hstep, heq], hp, by simp,
          fun u hu => hub u hu⟩
      · refine Or.inr ⟨p :: pre, t, post, by rw [hsplit]; rfl, by rw [hstep, heq],
          lt_trans hp hgt, ?_, hpost⟩
        intro u hu
        rcases List.mem_cons.mp hu with rfl | hu
        · exact hgt
        · exact hpre u hu
    · have hstep : (p :: rest).foldl (classifyStep a d) b =
          rest.foldl (classifyStep a d) b := by
        simp only [List.foldl_cons, classifyStep, if_neg hp]
      rcases ih b with ⟨heq, hub⟩ | ⟨pre, t, post, hsplit, heq, hgt, hpre, hpost⟩
      · refine Or.inl ⟨by rw [hstep, heq], ?_⟩
        intro u hu
        rcases List.mem_cons.mp hu with rfl | hu
        · exact not_lt.mp hp
        · exact hub u hu
      · refine Or.inr ⟨p :: pre, t, post, by rw [hsplit]; rfl, by rw [hstep, heq], hgt, ?_,
          hpost⟩
        intro u hu
        rcases List.mem_cons.mp hu with rfl | hu
        · exact lt_of_le_of_lt (not_lt.mp hp) hgt
        · exact hpre u hu

/-- Claim C3: outside calibration/recording, the classifier returns
`"unknown"` whenever no template scores strictly above `0.6`; otherwise it
returns the name of the (unique) earliest template whose score strictly
beats every earlier template and is not exceeded by any later one. -/
theorem claim_C3 (a d : Vec5) (gs : List (String × TemplateData)) :
    ((∀ u ∈ gs, similarity a d u.2 ≤ 0.6) →
      recognize_gesture false false a d gs = "unknown") ∧
    ((∃ u ∈ gs, (0.6 : ℚ) < similarity a d u.2) →
      ∃ pre t post, gs = pre ++ t :: post ∧ (0.6 : ℚ) < similarity a d t.2 ∧
        (∀ u ∈ pre, similarity a d u.2 < similarity a d t.2) ∧
        (∀ u ∈ post, similarity a d u.2 ≤ similarity a d t.2) ∧
        recognize_gesture false false a d gs = t.1) := by
  constructor
  · intro hle
    rcases classify_foldl_char a d gs ("unknown", 0.6) with ⟨heq, _⟩ |
      ⟨pre, t, post, hsplit, _, hgt, _, _⟩
    · simp [recognize_gesture, heq]
    · refine absurd (hle t ?_) (not_le.mpr hgt)
      rw [hsplit]
      exact List.mem_append_right _ (List.mem_cons_self _ _)
  · rintro ⟨u, hu, hgt0⟩
    rcases classify_foldl_char a d gs ("unknown", 0.6) with ⟨_, hub⟩ |
      ⟨pre, t, post, hsplit, heq, hgt, hpre, hpost⟩
    · exact absurd hgt0 (not_lt.mpr (hub u hu))
    · exact ⟨pre, t, post, hsplit, hgt, hpre, hpost, by simp [recognize_gesture, heq]⟩

/-- Witness for C3: the zero descriptor scores below threshold against a
far-away template, so the classifier answers `"unknown"`. -/
theorem claim_C3_witness :
    recognize_gesture false false (fun _ => 0) (fun _ => 0) [("far", farTemplate)] =
      "unknown" := by
  apply (claim_C3 (fun _ => 0) (fun _ => 0) [("far", farTemplate)]).1
  intro u hu
  rw [List.mem_singleton] at hu
  subst hu
  norm_num [similarity, farTemplate, Finset.sum_const, Finset.card_univ]

/-- The window component of one smoothing step is the pushed window. -/
lemma smoothWindowEq (hist : List String) (prev g : String) :
    (smooth_gesture_prediction hist prev g).1 = pushHistory hist g := by
  unfold smooth_gesture_prediction
  split <;> rfl

/-- Iterated pushes yield a suffix of the fully appended window. -/
lemma foldl_pushHistory_suffix : ∀ (gs : List String) (hist : List String),
    gs.foldl pushHistory hist <:+ hist ++ gs := by
  intro gs
  induction gs with
  | nil => intro hist; simp
  | cons g rest ih =>
    intro hist
    have h1 := ih (pushHistory hist g)
    have h2 : pushHistory hist g ++ rest <:+ (hist ++ [g]) ++ rest :=
      suffix_append_right (pushHistory_suffix hist g)
    have h3 := h1.trans h2
    simpa using h3

/-- Length of the window after iterated pushes, below capacity. -/
lemma foldl_pushHistory_length : ∀ (gs : List String) (hist : List String),
    hist.length ≤ 5 →
    (gs.foldl pushHistory hist).length = min (hist.length + gs.length) 5 := by
  intro gs
  induction gs with
  | nil => intro hist hle; simp; omega
  | cons g rest ih =>
    intro hist hle
    have hp := pushHistory_length hist g hle
    have hple : (pushHistory hist g).length ≤ 5 := by omega
    have hrec := ih (pushHistory hist g) hple
    simp only [List.foldl_cons, List.length_cons]
    rw [hrec, hp]
    omega

/-- Two suffixes of the same list with equal length coincide. -/
lemma suffix_eq_of_length {l₁ l₂ l : List String} (h1 : l₁ <:+ l) (h2 : l₂ <:+ l)
    (hlen : l₁.length = l₂.length) : l₁ = l₂ := by
  obtain ⟨t1, ht1⟩ := h1
  obtain ⟨t2, ht2⟩ := h2
  have heq : t1 ++ l₁ = t2 ++ l₂ := by rw [ht1, ht2]
  have hlt : t1.length = t2.length := by
    have hc := congrArg List.length heq
    simp only [List.length_append] at hc
    omega
  exact (List.append_inj heq hlt).2

/-- The window evolves by `pushHistory` under the smoother run. -/
lemma smootherRun_history : ∀ (gs : List String) (s : SmootherState),
    (smootherRun s gs).history = gs.foldl pushHistory s.history := by
  intro gs
  induction gs with
  | nil => intro s; rfl
  | cons g rest ih =>
    intro s
    have hh : (smootherStep s g).history = pushHistory s.history g :=
      smoothWindowEq s.history s.prevGesture g
    simp only [smootherRun, List.foldl_cons] at *
    rw [ih, hh]

/-- A suffix has no more occurrences of any label. -/
lemma count_le_of_suffix {l₁ l₂ : List String} (h : l₁ <:+ l₂) (a : String) :
    l₁.count a ≤ l₂.count a := by
  obtain ⟨t, ht⟩ := h
  rw [← ht, List.count_append]
  omega

/-- When every label of the pushed window occurs at most twice, the
3-occurrence threshold fails and the previous label is returned. -/
lemma smooth_snd_of_count_le (hist : List String) (prev g : String)
    (hc : ∀ l, (pushHistory hist g).count l ≤ 2) :
    (smooth_gesture_prediction hist prev g).2 = prev := by
  have hlt : ¬ ((5 : ℚ) * 0.6 ≤
      ((pushHistory hist g).count (mostCommonIn (pushHistory hist g)) : ℚ)) := by
    push_neg
    have h2 := hc (mostCommonIn (pushHistory hist g))
    have h3 : ((pushHistory hist g).count (mostCommonIn (pushHistory hist g)) : ℚ) ≤ 2 := by
      exact_mod_cast h2
    norm_num
    linarith
  unfold smooth_gesture_prediction
  rw [if_neg hlt]

/-- Feeding labels that keep every count at most 2 never changes the
displayed label. -/
lemma smootherRun_prev_of_counts : ∀ (fed : List String) (s : SmootherState),
    (∀ l, (s.history ++ fed).count l ≤ 2) →
    (smootherRun s fed).prevGesture = s.prevGesture := by
  intro fed
  induction fed with
  | nil => intro s _; rfl
  | cons g rest ih =>
    intro s hc
    have hpush := pushHistory_suffix s.history g
    have hstep2 : (smootherStep s g).prevGesture = s.prevGesture := by
      apply smooth_snd_of_count_le
      intro l
      have h1 := count_le_of_suffix hpush l
      have h2 := hc l
      rw [show s.history ++ g :: rest = (s.history ++ [g]) ++ rest by simp] at h2
      rw [List.count_append] at h2
      omega
    have hh : (smootherStep s g).history = pushHistory s.history g :=
      smoothWindowEq s.history s.prevGesture g
    have hrec := ih (smootherStep s g) ?_
    · simp only [smootherRun, List.foldl_cons] at *
      rw [hrec, hstep2]
    · intro l
      rw [hh, List.count_append]
      have h1 := count_le_of_suffix hpush l
      have h2 := hc l
      rw [show s.history ++ g :: rest = (s.history ++ [g]) ++ rest by simp] at h2
      rw [List.count_append] at h2
      omega

/-- The most common label of an all-`L` window is `L`. -/
lemma mostCommonIn_replicate (L : String) : mostCommonIn [L, L, L, L, L] = L := by
  simp [mostCommonIn, windowKeys, insertKey]

/-- From any capacity-respecting state, five consecutive pushes of the
same label leave the window holding exactly five copies of it. -/
lemma foldl_push_five_same (hist : List String) (hle : hist.length ≤ 5) (L : String) :
    pushHistory ([L, L, L, L].foldl pushHistory hist) L = [L, L, L, L, L] := by
  have h4len := foldl_pushHistory_length [L, L, L, L] hist hle
  have h4suf := foldl_pushHistory_suffix [L, L, L, L] hist
  have h4le : ([L, L, L, L].foldl pushHistory hist).length ≤ 5 := by
    rw [h4len]; omega
  have h5len := pushHistory_length ([L, L, L, L].foldl pushHistory hist) L h4le
  have h5eq : (pushHistory ([L, L, L, L].foldl pushHistory hist) L).length = 5 := by
    simp only [List.length_cons] at h4len
    omega
  have h5suf : pushHistory ([L, L, L, L].foldl pushHistory hist) L <:+
      hist ++ [L, L, L, L, L] := by
    have hx := (pushHistory_suffix ([L, L, L, L].foldl pushHistory hist) L).trans
      (suffix_append_right h4suf)
    rw [List.append_assoc] at hx
    exact hx
  exact suffix_eq_of_length h5suf (List.suffix_append hist [L, L, L, L, L]) (by rw [h5eq]; rfl)

/-- The displayed component of one smoothing step. -/
lemma smootherStepPrev (s : SmootherState) (g : String) :
    (smootherStep s g).prevGesture =
      (smooth_gesture_prediction s.history s.prevGesture g).2 := rfl

/-- From any capacity-respecting state, feeding the same label five times
in a row makes it the displayed label. -/
lemma smootherRun_five_same (s : SmootherState) (hle : s.history.length ≤ 5) (L : String) :
    (smootherRun s [L, L, L, L, L]).prevGesture = L := by
  have hrun : smootherRun s [L, L, L, L, L] = smootherStep (smootherRun s [L, L, L, L]) L := by
    show List.foldl smootherStep s ([L, L, L, L] ++ [L]) = _
    rw [List.foldl_append]
    rfl
  have hhist : (smootherRun s [L, L, L, L]).history = [L, L, L, L].foldl pushHistory s.history :=
    smootherRun_history [L, L, L, L] s
  have hrep := foldl_push_five_same s.history hle L
  rw [hrun, smootherStepPrev, hhist]
  unfold smooth_gesture_prediction
  rw [hrep, mostCommonIn_replicate]
  have hcount : [L, L, L, L, L].count L = 5 := by simp
  rw [hcount]
  rw [if_pos (by norm_num : (5 : ℚ) * 0.6 ≤ ((5 : ℕ) : ℚ))]

/-- The rational threshold `5 * 0.6` agrees with the natural 3 on counts. -/
lemma smooth_eq_smoothN (hist : List String) (prev g : String) :
    smooth_gesture_prediction hist prev g = smoothN hist prev g := by
  unfold smooth_gesture_prediction smoothN
  have hiff : ((5 : ℚ) * 0.6 ≤
      ((pushHistory hist g).count (mostCommonIn (pushHistory hist g)) : ℚ)) ↔
      3 ≤ (pushHistory hist g).count (mostCommonIn (pushHistory hist g)) := by
    rw [show (5 : ℚ) * 0.6 = ((3 : ℕ) : ℚ) by norm_num]
    exact Nat.cast_le
  rw [if_congr hiff rfl rfl]

/-- The two smoother runs agree. -/
lemma smootherRun_eq_runN : ∀ (gs : List String) (s : SmootherState),
    smootherRun s gs = smootherRunN s gs := by
  intro gs
  induction gs with
  | nil => intro s; rfl
  | cons g rest ih =>
    intro s
    have hstep : smootherStep s g = smootherStepN s g := by
      unfold smootherStep smootherStepN
      rw [smooth_eq_smoothN]
    simp only [smootherRun, smootherRunN, List.foldl_cons] at *
    rw [hstep, ih]

/-- Claim C4 (amended): from any state respecting the window capacity
(at most 5 entries), feeding the same label five times makes it the
displayed label; and feeding five pairwise-distinct labels, none already
present in the window, from a state in which no label occurs three or
more times, leaves the displayed label unchanged. -/
theorem claim_C4 (s : SmootherState) (hlen : s.history.length ≤ 5) (L : String)
    (fed : List String) (_hfive : fed.length = 5) (hnodup : fed.Nodup)
    (hnotin : ∀ x ∈ fed, x ∉ s.history) (hcnt : ∀ l, s.history.count l ≤ 2) :
    (smootherRun s [L, L, L, L, L]).prevGesture = L ∧
    (smootherRun s fed).prevGesture = s.prevGesture := by
  refine ⟨smootherRun_five_same s hlen L, ?_⟩
  apply smootherRun_prev_of_counts
  intro l
  rw [List.count_append]
  by_cases hl : l ∈ fed
  · have h0 : s.history.count l = 0 := List.count_eq_zero.mpr (hnotin l hl)
    have h1 : fed.count l ≤ 1 := List.nodup_iff_count_le_one.mp hnodup l
    omega
  · have h0 : fed.count l = 0 := List.count_eq_zero.mpr hl
    have h1 := hcnt l
    omega

/-- Counterexample to C4 as stated: from the state whose window is five
copies of `"A"` and whose displayed label is `"unknown"`, feeding the five
pairwise-distinct labels B..F changes the displayed label (the leftover
`"A"`s reach the 3-occurrence threshold during the first steps). -/
theorem claim_C4_counterexample :
    ["B", "C", "D", "E", "F"].Nodup ∧
      (smootherRun ⟨["A", "A", "A", "A", "A"], "unknown"⟩
        ["B", "C", "D", "E", "F"]).prevGesture ≠ "unknown" := by
  rw [smootherRun_eq_runN]
  constructor
  · decide
  · decide

/-- Witness for C4 from the empty initial state. -/
theorem claim_C4_witness :
    (smootherRun ⟨[], "unknown"⟩ ["stop", "stop", "stop", "stop", "stop"]).prevGesture =
        "stop" ∧
      (smootherRun ⟨[], "unknown"⟩ ["a", "b", "c", "d", "e"]).prevGesture = "unknown" := by
  have h := claim_C4 ⟨[], "unknown"⟩ (by simp) "stop" ["a", "b", "c", "d", "e"] rfl
    (by decide) (by intro x hx; simp) (by intro l; simp)
  exact ⟨h.1, h.2⟩

/-- The initial accumulator bounds a left max-fold from below. -/
lemma foldl_max_init_le (l : List ℝ) (a : ℝ) : a ≤ l.foldl max a := by
  induction l generalizing a with
  | nil => exact le_refl a
  | cons y ys ih => exact le_trans (le_max_left a y) (ih (max a y))

/-- Every member bounds a left max-fold from below. -/
lemma le_foldl_max (l : List ℝ) : ∀ (a x : ℝ), x ∈ l → x ≤ l.foldl max a := by
  induction l with
  | nil => intro a x hx; cases hx
  | cons y ys ih =>
    intro a x hx
    rcases List.mem_cons.mp hx with rfl | hx2
    · exact le_trans (le_max_right a x) (foldl_max_init_le ys (max a x))
    · exact ih (max a y) x hx2

/-- A left max-fold returns its accumulator or one of its members. -/
lemma foldl_max_mem (l : List ℝ) (a : ℝ) : l.foldl max a = a ∨ l.foldl max a ∈ l := by
  induction l generalizing a with
  | nil => exact Or.inl rfl
  | cons y ys ih =>
    rcases ih (max a y) with h | h
    · rcases max_cases a y with ⟨hm, _⟩ | ⟨hm, _⟩
      · exact Or.inl (by rw [List.foldl_cons, h, hm])
      · refine Or.inr ?_
        rw [List.foldl_cons, h, hm]
        exact List.mem_cons_self y ys
    · exact Or.inr (List.mem_cons_of_mem y h)

/-- A planar vector with positive squared norm has nonzero norm. -/
lemma norm2_ne_zero {x : ℝ × ℝ} (h : 0 < x.1 ^ 2 + x.2 ^ 2) : norm2 x ≠ 0 :=
  ne_of_gt (Real.sqrt_pos.mpr h)

/-- Every raw fingertip distance is bounded by `max_dist`. -/
lemma rawDist_le_max (lm : Landmarks) (i : Fin 5) : rawDist lm i ≤ max_dist lm :=
  le_foldl_max _ 0 _ (List.mem_map.mpr ⟨i, List.mem_finRange i, rfl⟩)

/-- Claim C7: away from the degenerate cases (no zero-length joint vector,
positive maximal fingertip distance) every angle is defined and lies in
`[-1, 1]`, and every normalized distance lies in `[0, 1]`. -/
theorem claim_C7 (lm : Landmarks) (hA : ∀ i : Fin 5, angleDenom lm i ≠ 0)
    (hD : 0 < max_dist lm) :
    (∀ i : Fin 5, ∃ a, calculate_finger_angles lm i = some a ∧ -1 ≤ a ∧ a ≤ 1) ∧
    (∀ i : Fin 5, 0 ≤ calculate_finger_distances lm i ∧
      calculate_finger_distances lm i ≤ 1) := by
  constructor
  · intro i
    refine ⟨1 - Real.arccos (min (max (dot2 (angleVecs lm i).1 (angleVecs lm i).2 /
      angleDenom lm i) (-1)) 1) / Real.pi * 2, ?_, ?_, ?_⟩
    · unfold calculate_finger_angles
      rw [if_neg (hA i)]
    · have h1 := Real.arccos_le_pi (min (max (dot2 (angleVecs lm i).1 (angleVecs lm i).2 /
        angleDenom lm i) (-1)) 1)
      have hπ := Real.pi_pos
      have h2 : Real.arccos (min (max (dot2 (angleVecs lm i).1 (angleVecs lm i).2 /
          angleDenom lm i) (-1)) 1) / Real.pi ≤ 1 := (div_le_one hπ).mpr h1
      linarith
    · have h2 := Real.arccos_nonneg (min (max (dot2 (angleVecs lm i).1 (angleVecs lm i).2 /
        angleDenom lm i) (-1)) 1)
      have hπ := Real.pi_pos
      have h3 : 0 ≤ Real.arccos (min (max (dot2 (angleVecs lm i).1 (angleVecs lm i).2 /
          angleDenom lm i) (-1)) 1) / Real.pi := div_nonneg h2 (le_of_lt hπ)
      linarith
  · intro i
    unfold calculate_finger_distances
    rw [if_pos hD]
    have h0 : (0 : ℝ) ≤ rawDist lm i := Real.sqrt_nonneg _
    have h1 := rawDist_le_max lm i
    have h2 : rawDist lm i / max_dist lm ≤ 1 := (div_le_one hD).mpr h1
    have h3 : 0 ≤ rawDist lm i / max_dist lm := div_nonneg h0 (le_of_lt hD)
    constructor <;> linarith

/-- Claim C8: whenever the maximal raw fingertip distance is positive it
is attained by some fingertip, and every fingertip attaining it receives
the final normalized-and-inverted distance `0`. -/
theorem claim_C8 (lm : Landmarks) (h : 0 < max_dist lm) :
    (∃ i : Fin 5, rawDist lm i = max_dist lm) ∧
      ∀ i : Fin 5, rawDist lm i = max_dist lm → calculate_finger_distances lm i = 0 := by
  constructor
  · rcases foldl_max_mem ((List.finRange 5).map (rawDist lm)) 0 with h0 | hmem
    · exfalso
      unfold max_dist at h
      rw [h0] at h
      exact lt_irrefl 0 h
    · obtain ⟨i, _, hieq⟩ := List.mem_map.mp hmem
      exact ⟨i, hieq⟩
  · intro i hi
    unfold calculate_finger_distances
    rw [if_pos h, hi, div_self (ne_of_gt h)]
    ring

/-- On the concrete hand `lm7` no joint vector degenerates. -/
lemma lm7_denoms : ∀ i : Fin 5, angleDenom lm7 i ≠ 0 := by
  intro i
  fin_cases i <;>
    refine mul_ne_zero (norm2_ne_zero ?_) (norm2_ne_zero ?_) <;>
      norm_num [angleVecs, fingerTriple, lm7, vsub,
        show ((3 : Fin 21) : ℕ) = 3 from rfl, show ((6 : Fin 21) : ℕ) = 6 from rfl,
        show ((8 : Fin 21) : ℕ) = 8 from rfl, show ((10 : Fin 21) : ℕ) = 10 from rfl,
        show ((12 : Fin 21) : ℕ) = 12 from rfl, show ((14 : Fin 21) : ℕ) = 14 from rfl,
        show ((16 : Fin 21) : ℕ) = 16 from rfl, show ((18 : Fin 21) : ℕ) = 18 from rfl,
        show ((20 : Fin 21) : ℕ) = 20 from rfl]

/-- On the concrete hand `lm7` the maximal fingertip distance is positive. -/
lemma lm7_max_dist_pos : 0 < max_dist lm7 := by
  have h1 : 0 < rawDist lm7 0 := by
    unfold rawDist norm2
    apply Real.sqrt_pos.mpr
    norm_num [vsub, fingertip, palmCenter, palmPoints, lm7,
      show ((4 : Fin 21) : ℕ) = 4 from rfl, show ((5 : Fin 21) : ℕ) = 5 from rfl,
      show ((9 : Fin 21) : ℕ) = 9 from rfl, show ((13 : Fin 21) : ℕ) = 13 from rfl,
      show ((17 : Fin 21) : ℕ) = 17 from rfl]
  exact lt_of_lt_of_le h1 (rawDist_le_max lm7 0)

/-- Witness for C7 on the concrete hand `lm7`. -/
theorem claim_C7_witness :
    (∃ a, calculate_finger_angles lm7 0 = some a ∧ -1 ≤ a ∧ a ≤ 1) ∧
      (0 ≤ calculate_finger_distances lm7 0 ∧ calculate_finger_distances lm7 0 ≤ 1) := by
  have h := claim_C7 lm7 lm7_denoms lm7_max_dist_pos
  exact ⟨h.1 0, h.2 0⟩

/-- Witness for C8 on the concrete hand `lm7`: some fingertip attains the
maximal raw distance and its final distance value is 0. -/
theorem claim_C8_witness :
    ∃ i : Fin 5, rawDist lm7 i = max_dist lm7 ∧ calculate_finger_distances lm7 i = 0 := by
  obtain ⟨i, hi⟩ := (claim_C8 lm7 lm7_max_dist_pos).1
  exact ⟨i, hi, (claim_C8 lm7 lm7_max_dist_pos).2 i hi⟩
